import Mathlib

/-
Verification of the typed Redis persistence layer (platform/orm.go) and the
Environment registry (platform config with change-notification callbacks)
of the in-my-voice server.

The Redis backend is modelled as a pure store mapping keys to typed values.
Each layer operation is embedded as a pure function that returns its Go
result, the store after the call, and the list of backend commands issued
(so that key-computation and fail-fast claims are expressible).

Modelling notes:
  - bytes are modelled as String;
  - sorted-set scores are float64 in Go; no verified claim depends on score
    arithmetic, so scores are modelled as Int;
  - time-to-live effects of EXPIRE/EXPIREAT are not modelled (the commands
    are recorded in the trace, the store is unchanged);
  - the blocking wait of BLMOVE is not modelled: an empty or absent list at
    call time is modelled as the timeout outcome (redis.Nil), matching what
    the blocked caller sees when no data arrives in time.
-/

namespace InMyVoice

/-- Stored Redis values, one constructor per backend data-structure family. -/
inductive RVal where
  | str (s : String)
  | set (members : List String)
  | zset (entries : List (String × Int))
  | list (elems : List String)
  | hash (fields : List (String × String))
deriving DecidableEq, Repr

/-- The backend key space: a flat map from key strings to typed values. -/
def Store := String → Option RVal

/-- The store with no keys. -/
def emptyStore : Store := fun _ => none

/-- Pointwise update of the store (some v writes, none deletes). -/
def Store.update (s : Store) (key : String) (v : Option RVal) : Store :=
  fun k2 => if k2 = key then v else s k2

/-- Errors a single backend command can produce in the model:
redis.Nil (missing key/member) or a WRONGTYPE-class backend error. -/
inductive RErr where
  | nil
  | wrongType
deriving DecidableEq, Repr

/-- Go-level error vocabulary of the layer, as distinguishable error values.
`redisNil` is go-redis's redis.Nil sentinel propagated unmodified;
`notFound key` is the layer's fmt.Errorf("key %v: %w", key, NotFoundError);
`backend` is any other backend/transport error; `misuse` is a programmer
error such as "storable has no ID"; `codec` is a ToRedis/FromRedis failure. -/
inductive GoError where
  | redisNil
  | notFound (key : String)
  | backend (msg : String)
  | misuse (msg : String)
  | codec (msg : String)
deriving DecidableEq, Repr

/-- errors.Is(e, NotFoundError): true exactly for the layer's wrapped
NotFoundError sentinel. -/
def GoError.isNotFoundError : GoError → Bool
  | .notFound _ => true
  | _ => false

/-- errors.Is(e, redis.Nil). -/
def GoError.isRedisNil : GoError → Bool
  | .redisNil => true
  | _ => false

/-- Lift a backend command error to the layer's error vocabulary, the way
the Go code returns `err` unmodified. -/
def liftErr : RErr → GoError
  | .nil => .redisNil
  | .wrongType => .backend "WRONGTYPE"

/-- One backend command, with every key and argument it was issued with. -/
inductive Cmd where
  | expire (key : String) (secs : Int)
  | expireAt (key : String) (at_ : Int)
  | del (key : String)
  | get (key : String)
  | set (key : String) (val : String)
  | smembers (key : String)
  | sismember (key : String) (member : String)
  | sadd (key : String) (members : List String)
  | srem (key : String) (members : List String)
  | zrange (key : String) (start stop : Int)
  | zrangebyscore (key : String) (min max : Int)
  | zadd (key : String) (score : Int) (member : String)
  | zrem (key : String) (member : String)
  | zscore (key : String) (member : String)
  | lrange (key : String) (start stop : Int)
  | blmove (srcKey dstKey : String) (srcSide dstSide : String) (timeout : Int)
  | lmove (srcKey dstKey : String) (srcSide dstSide : String)
  | lpush (key : String) (elems : List String)
  | rpush (key : String) (elems : List String)
  | lrem (key : String) (count : Int) (elem : String)
  | hget (key : String) (field : String)
  | hset (key : String) (field val : String)
  | hkeys (key : String)
  | hgetall (key : String)
  | hdel (key : String) (field : String)
deriving DecidableEq, Repr

/-- The keys a command addresses. -/
def Cmd.keys : Cmd → List String
  | .expire k _ => [k]
  | .expireAt k _ => [k]
  | .del k => [k]
  | .get k => [k]
  | .set k _ => [k]
  | .smembers k => [k]
  | .sismember k _ => [k]
  | .sadd k _ => [k]
  | .srem k _ => [k]
  | .zrange k _ _ => [k]
  | .zrangebyscore k _ _ => [k]
  | .zadd k _ _ => [k]
  | .zrem k _ => [k]
  | .zscore k _ => [k]
  | .lrange k _ _ => [k]
  | .blmove k1 k2 _ _ _ => [k1, k2]
  | .lmove k1 k2 _ _ => [k1, k2]
  | .lpush k _ => [k]
  | .rpush k _ => [k]
  | .lrem k _ _ => [k]
  | .hget k _ => [k]
  | .hset k _ _ => [k]
  | .hkeys k => [k]
  | .hgetall k => [k]
  | .hdel k _ => [k]

/-- Every command in the trace addresses only the given key. -/
def tracesOnly (t : List Cmd) (key : String) : Bool :=
  t.all fun c => c.keys.all fun k2 => k2 == key

/- Backend command semantics. -/

/-- GET: value of a string key; redis.Nil if absent; WRONGTYPE otherwise. -/
def redisGet (s : Store) (key : String) : Except RErr String :=
  match s key with
  | none => .error .nil
  | some (.str v) => .ok v
  | some _ => .error .wrongType

/-- SET: unconditionally store a string value at the key. -/
def redisSet (s : Store) (key : String) (v : String) : Store :=
  s.update key (some (.str v))

/-- DEL: remove the key if present. -/
def redisDel (s : Store) (key : String) : Store :=
  s.update key none

/-- SMEMBERS: members of a set key; an absent key reads as the empty set. -/
def redisSMembers (s : Store) (key : String) : Except RErr (List String) :=
  match s key with
  | none => .ok []
  | some (.set ms) => .ok ms
  | some _ => .error .wrongType

/-- SISMEMBER. -/
def redisSIsMember (s : Store) (key : String) (m : String) : Except RErr Bool :=
  match s key with
  | none => .ok false
  | some (.set ms) => .ok (ms.contains m)
  | some _ => .error .wrongType

/-- Add members to a set representation, keeping it duplicate-free. -/
def saddList (cur : List String) (ms : List String) : List String :=
  ms.foldl (fun acc m => if acc.contains m then acc else acc ++ [m]) cur

/-- SADD: create or extend the set at the key. -/
def redisSAdd (s : Store) (key : String) (ms : List String) :
    Except RErr Unit × Store :=
  match s key with
  | none => (.ok (), s.update key (some (.set (saddList [] ms))))
  | some (.set cur) => (.ok (), s.update key (some (.set (saddList cur ms))))
  | some _ => (.error .wrongType, s)

/-- SREM: remove members; Redis deletes a set key that becomes empty. -/
def redisSRem (s : Store) (key : String) (ms : List String) :
    Except RErr Unit × Store :=
  match s key with
  | none => (.ok (), s)
  | some (.set cur) =>
    let cur2 := ms.foldl (fun acc m => acc.filter (fun x => x != m)) cur
    if cur2.isEmpty then (.ok (), s.update key none)
    else (.ok (), s.update key (some (.set cur2)))
  | some _ => (.error .wrongType, s)

/-- Sorted-set order: ascending by score, ties broken by member string. -/
def zInsert (p : String × Int) : List (String × Int) → List (String × Int)
  | [] => [p]
  | q :: rest =>
    if p.2 < q.2 ∨ (p.2 = q.2 ∧ ¬ q.1 < p.1) then p :: q :: rest
    else q :: zInsert p rest

/-- Sort sorted-set entries into Redis rank order. -/
def zSort (entries : List (String × Int)) : List (String × Int) :=
  entries.foldr zInsert []

/-- Normalize a Redis index range (negative indices count from the end,
the stop index is inclusive) into a sublist. -/
def rangeSlice {α : Type} (l : List α) (start stop : Int) : List α :=
  let len : Int := l.length
  let s := if start < 0 then len + start else start
  let e := if stop < 0 then len + stop else stop
  if e < 0 then [] else (l.take (e.toNat + 1)).drop s.toNat

/-- ZRANGE: members in rank order over the index range. -/
def redisZRange (s : Store) (key : String) (start stop : Int) :
    Except RErr (List String) :=
  match s key with
  | none => .ok []
  | some (.zset entries) => .ok (rangeSlice ((zSort entries).map Prod.fst) start stop)
  | some _ => .error .wrongType

/-- ZRANGEBYSCORE over an inclusive score interval. -/
def redisZRangeByScore (s : Store) (key : String) (min max : Int) :
    Except RErr (List String) :=
  match s key with
  | none => .ok []
  | some (.zset entries) =>
    .ok (((zSort entries).filter (fun p => min ≤ p.2 ∧ p.2 ≤ max)).map Prod.fst)
  | some _ => .error .wrongType

/-- Replace a member's score, or append the member if new. -/
def zAddEntry (entries : List (String × Int)) (score : Int) (member : String) :
    List (String × Int) :=
  if entries.any (fun p => p.1 == member) then
    entries.map (fun p => if p.1 == member then (member, score) else p)
  else entries ++ [(member, score)]

/-- ZADD of a single scored member. -/
def redisZAdd (s : Store) (key : String) (score : Int) (member : String) :
    Except RErr Unit × Store :=
  match s key with
  | none => (.ok (), s.update key (some (.zset [(member, score)])))
  | some (.zset entries) =>
    (.ok (), s.update key (some (.zset (zAddEntry entries score member))))
  | some _ => (.error .wrongType, s)

/-- ZREM: remove a member; Redis deletes a key that becomes empty. -/
def redisZRem (s : Store) (key : String) (member : String) :
    Except RErr Unit × Store :=
  match s key with
  | none => (.ok (), s)
  | some (.zset entries) =>
    let rest := entries.filter (fun p => p.1 != member)
    if rest.isEmpty then (.ok (), s.update key none)
    else (.ok (), s.update key (some (.zset rest)))
  | some _ => (.error .wrongType, s)

/-- ZSCORE: the member's score; redis.Nil when the key or member is absent. -/
def redisZScore (s : Store) (key : String) (member : String) :
    Except RErr Int :=
  match s key with
  | none => .error .nil
  | some (.zset entries) =>
    match entries.lookup member with
    | none => .error .nil
    | some sc => .ok sc
  | some _ => .error .wrongType

/-- LRANGE: an absent key reads as the empty list. -/
def redisLRange (s : Store) (key : String) (start stop : Int) :
    Except RErr (List String) :=
  match s key with
  | none => .ok []
  | some (.list l) => .ok (rangeSlice l start stop)
  | some _ => .error .wrongType

/-- Pop one element from an end of a list. -/
def popEnd (l : List String) (fromLeft : Bool) : Option (String × List String) :=
  if fromLeft then
    match l with
    | [] => none
    | x :: xs => some (x, xs)
  else
    match l.getLast? with
    | none => none
    | some x => some (x, l.dropLast)

/-- Push one element at an end of a list. -/
def pushEnd (l : List String) (x : String) (toLeft : Bool) : List String :=
  if toLeft then x :: l else l ++ [x]

/-- LMOVE (also the data-present behavior of BLMOVE): atomically pop one
element from the chosen end of the source list and push it at the chosen
end of the destination list; redis.Nil when the source is empty or absent.
Redis deletes a list key that becomes empty. -/
def redisLMove (s : Store) (srcKey dstKey : String) (srcLeft dstLeft : Bool) :
    Except RErr String × Store :=
  match s srcKey with
  | none => (.error .nil, s)
  | some (.list l) =>
    match popEnd l srcLeft with
    | none => (.error .nil, s)
    | some (x, rest) =>
      let s1 := if rest.isEmpty then s.update srcKey none
                else s.update srcKey (some (.list rest))
      match s1 dstKey with
      | none => (.ok x, s1.update dstKey (some (.list [x])))
      | some (.list dl) => (.ok x, s1.update dstKey (some (.list (pushEnd dl x dstLeft))))
      | some _ => (.error .wrongType, s)
  | some _ => (.error .wrongType, s)

/-- LPUSH pushes the arguments one by one at the head. -/
def redisLPush (s : Store) (key : String) (elems : List String) :
    Except RErr Unit × Store :=
  match s key with
  | none => (.ok (), s.update key (some (.list elems.reverse)))
  | some (.list l) => (.ok (), s.update key (some (.list (elems.reverse ++ l))))
  | some _ => (.error .wrongType, s)

/-- RPUSH appends the arguments in order at the tail. -/
def redisRPush (s : Store) (key : String) (elems : List String) :
    Except RErr Unit × Store :=
  match s key with
  | none => (.ok (), s.update key (some (.list elems)))
  | some (.list l) => (.ok (), s.update key (some (.list (l ++ elems))))
  | some _ => (.error .wrongType, s)

/-- Remove up to n occurrences of x scanning from the head. -/
def removeN : List String → Nat → String → List String
  | [], _, _ => []
  | y :: ys, 0, _ => y :: ys
  | y :: ys, n + 1, x =>
    if y == x then removeN ys n x else y :: removeN ys (n + 1) x

/-- LREM count semantics: positive from head, negative from tail, zero all. -/
def lremList (l : List String) (count : Int) (x : String) : List String :=
  if count = 0 then l.filter (fun y => y != x)
  else if 0 < count then removeN l count.toNat x
  else (removeN l.reverse (-count).toNat x).reverse

/-- LREM; Redis deletes a list key that becomes empty. -/
def redisLRem (s : Store) (key : String) (count : Int) (x : String) :
    Except RErr Unit × Store :=
  match s key with
  | none => (.ok (), s)
  | some (.list l) =>
    let l2 := lremList l count x
    if l2.isEmpty then (.ok (), s.update key none)
    else (.ok (), s.update key (some (.list l2)))
  | some _ => (.error .wrongType, s)

/-- HGET: redis.Nil when the key or the field is absent. -/
def redisHGet (s : Store) (key field : String) : Except RErr String :=
  match s key with
  | none => .error .nil
  | some (.hash fields) =>
    match fields.lookup field with
    | none => .error .nil
    | some v => .ok v
  | some _ => .error .wrongType

/-- Replace the field's value, or append the field if new. -/
def hSetEntry (fields : List (String × String)) (field v : String) :
    List (String × String) :=
  if fields.any (fun p => p.1 == field) then
    fields.map (fun p => if p.1 == field then (field, v) else p)
  else fields ++ [(field, v)]

/-- HSET of one field. -/
def redisHSet (s : Store) (key field v : String) : Except RErr Unit × Store :=
  match s key with
  | none => (.ok (), s.update key (some (.hash [(field, v)])))
  | some (.hash fields) =>
    (.ok (), s.update key (some (.hash (hSetEntry fields field v))))
  | some _ => (.error .wrongType, s)

/-- HKEYS: an absent key reads as the empty hash. -/
def redisHKeys (s : Store) (key : String) : Except RErr (List String) :=
  match s key with
  | none => .ok []
  | some (.hash fields) => .ok (fields.map Prod.fst)
  | some _ => .error .wrongType

/-- HGETALL: the full field map. -/
def redisHGetAll (s : Store) (key : String) :
    Except RErr (List (String × String)) :=
  match s key with
  | none => .ok []
  | some (.hash fields) => .ok fields
  | some _ => .error .wrongType

/-- HDEL of one field; Redis deletes a key whose hash becomes empty. -/
def redisHDel (s : Store) (key field : String) : Except RErr Unit × Store :=
  match s key with
  | none => (.ok (), s)
  | some (.hash fields) =>
    let rest := fields.filter (fun p => p.1 != field)
    if rest.isEmpty then (.ok (), s.update key none)
    else (.ok (), s.update key (some (.hash rest)))
  | some _ => (.error .wrongType, s)

/- The typed layer of orm.go. A RedisKey is the pair of observations the Go
interface exposes; GetDb's connection is implicit and its key-prefix is the
pfx argument threaded through every operation. -/

/-- The RedisKey capability: a fixed per-type storage namespace and a
per-value identifier. -/
structure RedisKey where
  StoragePrefix : String
  StorageId : String
deriving DecidableEq, Repr

/-- The key computed by every operation:
active-environment-prefix + StoragePrefix() + StorageId(). -/
def computeKey (pfx : String) (k : RedisKey) : String :=
  pfx ++ k.StoragePrefix ++ k.StorageId

/-- The observable outcome of one layer operation: the Go return value,
the store after the call, and the backend commands issued. -/
structure OpOut (α : Type) where
  result : Except GoError α
  store : Store
  trace : List Cmd

/-- SetExpiration: EXPIRE on the computed key. Go performs no empty-id
check here; the TTL effect itself is not modelled. -/
def SetExpiration (pfx : String) (s : Store) (obj : RedisKey) (secs : Int) :
    OpOut Unit :=
  let key := pfx ++ obj.StoragePrefix ++ obj.StorageId
  { result := .ok (), store := s, trace := [.expire key secs] }

/-- SetExpirationAt: EXPIREAT on the computed key. No empty-id check. -/
def SetExpirationAt (pfx : String) (s : Store) (obj : RedisKey) (at_ : Int) :
    OpOut Unit :=
  let key := pfx ++ obj.StoragePrefix ++ obj.StorageId
  { result := .ok (), store := s, trace := [.expireAt key at_] }

/-- DeleteStorage: fails fast with "storable has no ID" when StorageId is
empty, issuing no command; otherwise DEL on the computed key. -/
def DeleteStorage (pfx : String) (s : Store) (obj : RedisKey) : OpOut Unit :=
  if obj.StorageId = "" then
    { result := .error (.misuse "storable has no ID"), store := s, trace := [] }
  else
    let key := pfx ++ obj.StoragePrefix ++ obj.StorageId
    { result := .ok (), store := redisDel s key, trace := [.del key] }

/-- FetchString: GET on the computed key; redis.Nil is converted into an
empty string with no error, any other error is returned unmodified. -/
def FetchString (pfx : String) (s : Store) (obj : RedisKey) : OpOut String :=
  let key := pfx ++ obj.StoragePrefix ++ obj.StorageId
  { result :=
      match redisGet s key with
      | .error .nil => .ok ""
      | .error e => .error (liftErr e)
      | .ok v => .ok v,
    store := s, trace := [.get key] }

/-- StoreString: SET on the computed key. -/
def StoreString (pfx : String) (s : Store) (obj : RedisKey) (val : String) :
    OpOut Unit :=
  let key := pfx ++ obj.StoragePrefix ++ obj.StorageId
  { result := .ok (), store := redisSet s key val, trace := [.set key val] }

/-- FetchMembers: SMEMBERS on the computed key. -/
def FetchMembers (pfx : String) (s : Store) (obj : RedisKey) :
    OpOut (List String) :=
  let key := pfx ++ obj.StoragePrefix ++ obj.StorageId
  { result := (redisSMembers s key).mapError liftErr,
    store := s, trace := [.smembers key] }

/-- IsMember: SISMEMBER on the computed key. -/
def IsMember (pfx : String) (s : Store) (obj : RedisKey) (member : String) :
    OpOut Bool :=
  let key := pfx ++ obj.StoragePrefix ++ obj.StorageId
  { result := (redisSIsMember s key member).mapError liftErr,
    store := s, trace := [.sismember key member] }

/-- AddMembers: no-op (no command) on empty input, else SADD. -/
def AddMembers (pfx : String) (s : Store) (obj : RedisKey)
    (members : List String) : OpOut Unit :=
  if members.isEmpty then { result := .ok (), store := s, trace := [] }
  else
    let key := pfx ++ obj.StoragePrefix ++ obj.StorageId
    let p := redisSAdd s key members
    { result := p.1.mapError liftErr, store := p.2, trace := [.sadd key members] }

/-- RemoveMembers: no-op (no command) on empty input, else SREM. -/
def RemoveMembers (pfx : String) (s : Store) (obj : RedisKey)
    (members : List String) : OpOut Unit :=
  if members.isEmpty then { result := .ok (), store := s, trace := [] }
  else
    let key := pfx ++ obj.StoragePrefix ++ obj.StorageId
    let p := redisSRem s key members
    { result := p.1.mapError liftErr, store := p.2, trace := [.srem key members] }

/-- FetchRangeInterval: ZRANGE on the computed key. -/
def FetchRangeInterval (pfx : String) (s : Store) (obj : RedisKey)
    (start stop : Int) : OpOut (List String) :=
  let key := pfx ++ obj.StoragePrefix ++ obj.StorageId
  { result := (redisZRange s key start stop).mapError liftErr,
    store := s, trace := [.zrange key start stop] }

/-- FetchRangeScoreInterval: ZRANGEBYSCORE on the computed key. -/
def FetchRangeScoreInterval (pfx : String) (s : Store) (obj : RedisKey)
    (min max : Int) : OpOut (List String) :=
  let key := pfx ++ obj.StoragePrefix ++ obj.StorageId
  { result := (redisZRangeByScore s key min max).mapError liftErr,
    store := s, trace := [.zrangebyscore key min max] }

/-- AddScoredMember: ZADD on the computed key. -/
def AddScoredMember (pfx : String) (s : Store) (obj : RedisKey)
    (score : Int) (member : String) : OpOut Unit :=
  let key := pfx ++ obj.StoragePrefix ++ obj.StorageId
  let p := redisZAdd s key score member
  { result := p.1.mapError liftErr, store := p.2, trace := [.zadd key score member] }

/-- RemoveScoredMember: ZREM on the computed key. -/
def RemoveScoredMember (pfx : String) (s : Store) (obj : RedisKey)
    (member : String) : OpOut Unit :=
  let key := pfx ++ obj.StoragePrefix ++ obj.StorageId
  let p := redisZRem s key member
  { result := p.1.mapError liftErr, store := p.2, trace := [.zrem key member] }

/-- GetMemberScore: ZSCORE on the computed key; the backend error (redis.Nil
included) is returned unmodified. -/
def GetMemberScore (pfx : String) (s : Store) (obj : RedisKey)
    (member : String) : OpOut Int :=
  let key := pfx ++ obj.StoragePrefix ++ obj.StorageId
  { result := (redisZScore s key member).mapError liftErr,
    store := s, trace := [.zscore key member] }

/-- FetchRange: LRANGE on the computed key. -/
def FetchRange (pfx : String) (s : Store) (obj : RedisKey)
    (start stop : Int) : OpOut (List String) :=
  let key := pfx ++ obj.StoragePrefix ++ obj.StorageId
  { result := (redisLRange s key start stop).mapError liftErr,
    store := s, trace := [.lrange key start stop] }

/-- FetchOneBlocking: one BLMOVE with the computed key as both source and
destination; pops from the chosen end, re-pushes at the opposite end. -/
def FetchOneBlocking (pfx : String) (s : Store) (obj : RedisKey)
    (onLeft : Bool) (timeout : Int) : OpOut String :=
  let key := pfx ++ obj.StoragePrefix ++ obj.StorageId
  let src := if onLeft then "left" else "right"
  let dst := if onLeft then "right" else "left"
  let p := redisLMove s key key (src == "left") (dst == "left")
  { result := p.1.mapError liftErr, store := p.2,
    trace := [.blmove key key src dst timeout] }

/-- MoveOne: one LMOVE from the source identity's key to the destination
identity's key; fails immediately (redis.Nil) when the source is empty. -/
def MoveOne (pfx : String) (s : Store) (src dst : RedisKey)
    (srcLeft dstLeft : Bool) : OpOut String :=
  let srcKey := pfx ++ src.StoragePrefix ++ src.StorageId
  let dstKey := pfx ++ dst.StoragePrefix ++ dst.StorageId
  let srcSide := if srcLeft then "left" else "right"
  let dstSide := if dstLeft then "left" else "right"
  let p := redisLMove s srcKey dstKey srcLeft dstLeft
  { result := p.1.mapError liftErr, store := p.2,
    trace := [.lmove srcKey dstKey srcSide dstSide] }

/-- PushRange: LPUSH or RPUSH of the members on the computed key. -/
def PushRange (pfx : String) (s : Store) (obj : RedisKey) (onLeft : Bool)
    (members : List String) : OpOut Unit :=
  let key := pfx ++ obj.StoragePrefix ++ obj.StorageId
  let p := if onLeft then redisLPush s key members else redisRPush s key members
  { result := p.1.mapError liftErr, store := p.2,
    trace := [if onLeft then .lpush key members else .rpush key members] }

/-- RemoveElement: LREM on the computed key. -/
def RemoveElement (pfx : String) (s : Store) (obj : RedisKey)
    (count : Int) (element : String) : OpOut Unit :=
  let key := pfx ++ obj.StoragePrefix ++ obj.StorageId
  let p := redisLRem s key count element
  { result := p.1.mapError liftErr, store := p.2,
    trace := [.lrem key count element] }

/-- MapGet: HGET on the computed key; redis.Nil is converted into an empty
string with no error, any other error is returned unmodified. -/
def MapGet (pfx : String) (s : Store) (obj : RedisKey) (k : String) :
    OpOut String :=
  let key := pfx ++ obj.StoragePrefix ++ obj.StorageId
  { result :=
      match redisHGet s key k with
      | .error .nil => .ok ""
      | .error e => .error (liftErr e)
      | .ok v => .ok v,
    store := s, trace := [.hget key k] }

/-- MapSet: HSET on the computed key. -/
def MapSet (pfx : String) (s : Store) (obj : RedisKey) (k v : String) :
    OpOut Unit :=
  let key := pfx ++ obj.StoragePrefix ++ obj.StorageId
  let p := redisHSet s key k v
  { result := p.1.mapError liftErr, store := p.2, trace := [.hset key k v] }

/-- MapGetKeys: HKEYS on the computed key. -/
def MapGetKeys (pfx : String) (s : Store) (obj : RedisKey) :
    OpOut (List String) :=
  let key := pfx ++ obj.StoragePrefix ++ obj.StorageId
  { result := (redisHKeys s key).mapError liftErr,
    store := s, trace := [.hkeys key] }

/-- MapGetAll: HGETALL on the computed key. -/
def MapGetAll (pfx : String) (s : Store) (obj : RedisKey) :
    OpOut (List (String × String)) :=
  let key := pfx ++ obj.StoragePrefix ++ obj.StorageId
  { result := (redisHGetAll s key).mapError liftErr,
    store := s, trace := [.hgetall key] }

/-- MapRemove: HDEL on the computed key. -/
def MapRemove (pfx : String) (s : Store) (obj : RedisKey) (k : String) :
    OpOut Unit :=
  let key := pfx ++ obj.StoragePrefix ++ obj.StorageId
  let p := redisHDel s key k
  { result := p.1.mapError liftErr, store := p.2, trace := [.hdel key k] }

/- Value codecs and the Load/Save combinators. -/

/-- The RedisValue capability: ToRedis serializes, FromRedis deserializes.
Go's FromRedis mutates its receiver; the model maps the prior receiver
state and the bytes to the new state. -/
structure Codec (V : Type) where
  ToRedis : V → Except String String
  FromRedis : V → String → Except String V

/-- The outcome of LoadValueAtKey: the Go error (none on success), the
receiver object's state after the call, the store, and the trace. -/
structure LoadOut (V : Type) where
  err : Option GoError
  obj : V
  store : Store
  trace : List Cmd

/-- LoadValueAtKey: GET the computed key's bytes; a missing key becomes the
layer's wrapped NotFoundError and the receiver is left untouched; otherwise
FromRedis replaces the receiver's state. -/
def LoadValueAtKey {V : Type} (c : Codec V) (pfx : String) (s : Store)
    (k : RedisKey) (v : V) : LoadOut V :=
  let key := pfx ++ k.StoragePrefix ++ k.StorageId
  let p : Option GoError × V :=
    match redisGet s key with
    | .error .nil => (some (.notFound key), v)
    | .error e => (some (liftErr e), v)
    | .ok bytes =>
      match c.FromRedis v bytes with
      | .error msg => (some (.codec msg), v)
      | .ok v2 => (none, v2)
  { err := p.1, obj := p.2, store := s, trace := [.get key] }

/-- SaveValueAtKey: ToRedis then SET at the computed key, unconditionally
overwriting; a serialization failure issues no command. -/
def SaveValueAtKey {V : Type} (c : Codec V) (pfx : String) (s : Store)
    (a : RedisKey) (v : V) : OpOut Unit :=
  let key := pfx ++ a.StoragePrefix ++ a.StorageId
  match c.ToRedis v with
  | .error msg => { result := .error (.codec msg), store := s, trace := [] }
  | .ok bytes =>
    { result := .ok (), store := redisSet s key bytes, trace := [.set key bytes] }

/-- An Object bundles the two capabilities on one domain type: a fixed
storage namespace, an identifier computed from the value, and a codec. -/
structure ObjectType (V : Type) where
  StoragePrefix : String
  StorageId : V → String
  codec : Codec V

/-- The RedisKey observations of an object value. -/
def ObjectType.keyOf {V : Type} (o : ObjectType V) (v : V) : RedisKey :=
  { StoragePrefix := o.StoragePrefix, StorageId := o.StorageId v }

/-- LoadObject obj = LoadValueAtKey(obj, obj): the same value supplies the
key and receives the loaded state. -/
def LoadObject {V : Type} (o : ObjectType V) (pfx : String) (s : Store)
    (v : V) : LoadOut V :=
  LoadValueAtKey o.codec pfx s (o.keyOf v) v

/-- SaveObject obj = SaveValueAtKey(obj, obj). -/
def SaveObject {V : Type} (o : ObjectType V) (pfx : String) (s : Store)
    (v : V) : OpOut Unit :=
  SaveValueAtKey o.codec pfx s (o.keyOf v) v

/- The Environment/Namespace registry (platform config with
change-notification callbacks). Registered callbacks are Go closures with
arbitrary effects; the model records, for each push/pop, the names of the
registered callbacks that run, in map-iteration order abstracted as the
registration list. -/

/-- The process-wide Environment record. -/
structure Environment where
  AgePublicKey : String := ""
  AgeSecretKey : String := ""
  AwsAccessKey : String := ""
  AwsBucket : String := ""
  AwsReportFolder : String := ""
  AwsRegion : String := ""
  AwsSecretKey : String := ""
  DbKeyPrefix : String := ""
  DbUrl : String := ""
  HttpHost : String := ""
  HttpPort : Int := 0
  HttpScheme : String := ""
  Name : String := ""
  SmtpCredId : String := ""
  SmtpCredSecret : String := ""
  SmtpHost : String := ""
  SmtpPort : Int := 0
deriving DecidableEq, Repr

/-- The built-in CI configuration. -/
def ciConfig : Environment :=
  { Name := "CI",
    AgePublicKey := "age1kq7jnct8jv0d2hr7u3vpf6804emfqwptz6svy9mc9nv7pnkzqc5qsm4wrz",
    AgeSecretKey := "AGE-SECRET-KEY-1H30T40KMX70VYEHM2ATF9N02U6KRL46660EFPU8GT76DAJNZN6EQRU7CGA",
    HttpScheme := "http",
    HttpHost := "localhost",
    SmtpHost := "localhost",
    HttpPort := 8080,
    SmtpPort := 2500,
    SmtpCredSecret := "",
    SmtpCredId := "",
    DbUrl := "redis://",
    DbKeyPrefix := "c:" }

/-- The registry's mutable state: the active Environment, the saved stack,
and the names of the registered change-notification actions. -/
structure Registry where
  loadedConfig : Environment
  configStack : List Environment
  configChangeActions : List String
deriving DecidableEq, Repr

/-- GetConfig returns the active Environment. -/
def GetConfig (r : Registry) : Environment := r.loadedConfig

/-- runConfigChangeActions runs every registered action; the model returns
the names of the actions run. -/
def runConfigChangeActions (r : Registry) : List String :=
  r.configChangeActions

/-- RegisterForConfigChange panics (modelled as none) on a duplicate name,
else records the action under the name. -/
def RegisterForConfigChange (r : Registry) (name : String) : Option Registry :=
  if name ∈ r.configChangeActions then none
  else some { r with configChangeActions := r.configChangeActions ++ [name] }

/-- UnregisterForConfigChange removes the action registered under the name. -/
def UnregisterForConfigChange (r : Registry) (name : String) : Registry :=
  { r with configChangeActions := r.configChangeActions.erase name }

/-- PushAlteredConfig appends the active Environment to the stack, installs
the new one, and runs the change actions. -/
def PushAlteredConfig (env : Environment) (r : Registry) :
    Registry × List String :=
  let r2 := { r with configStack := r.configStack ++ [r.loadedConfig],
                     loadedConfig := env }
  (r2, runConfigChangeActions r2)

/-- pushCiConfig: PushAlteredConfig with the built-in CI configuration. -/
def pushCiConfig (r : Registry) : Registry × List String :=
  let r2 := { r with configStack := r.configStack ++ [r.loadedConfig],
                     loadedConfig := ciConfig }
  (r2, runConfigChangeActions r2)

/-- PopConfig: with an empty stack, return immediately (no state change, no
actions run); otherwise restore the last saved Environment, shrink the
stack, and run the change actions. -/
def PopConfig (r : Registry) : Registry × List String :=
  match r.configStack.getLast? with
  | none => (r, [])
  | some env =>
    let r2 := { r with loadedConfig := env, configStack := r.configStack.dropLast }
    (r2, runConfigChangeActions r2)

/- Helper lemmas. -/

/-- mapError on an error value. -/
@[simp] theorem mapError_error {ε ε2 α : Type} (f : ε → ε2) (e : ε) :
    (Except.error e : Except ε α).mapError f = .error (f e) := rfl

/-- mapError on a success value. -/
@[simp] theorem mapError_ok {ε ε2 α : Type} (f : ε → ε2) (a : α) :
    (Except.ok a : Except ε α).mapError f = .ok a := rfl

/-- Reading back the key just written. -/
theorem Store.update_self (s : Store) (key : String) (v : Option RVal) :
    s.update key v key = v := by
  simp [Store.update]

/-- Reading an unrelated key after a write. -/
theorem Store.update_other (s : Store) (key k2 : String) (v : Option RVal)
    (h : k2 ≠ key) : s.update key v k2 = s k2 := by
  simp [Store.update, h]

/- Registry theorems. -/

/-- Claim C8: PushAlteredConfig(e) saves the active Environment on the
stack and makes e active; the next PopConfig restores exactly the
previously active registry state; PopConfig with an empty stack is a no-op
that changes neither the active Environment nor the stack. -/
theorem C8_push_pop_registry (env : Environment) (r : Registry) :
    (PushAlteredConfig env r).1.loadedConfig = env ∧
    (PushAlteredConfig env r).1.configStack = r.configStack ++ [r.loadedConfig] ∧
    (PopConfig (PushAlteredConfig env r).1).1 = r ∧
    (r.configStack = [] → PopConfig r = (r, [])) := by
  refine ⟨rfl, rfl, ?_, ?_⟩
  · simp [PopConfig, PushAlteredConfig, List.getLast?_concat, List.dropLast_concat]
  · intro h
    simp [PopConfig, h]

/-- Witness for C8 at a concrete registry with an empty stack. -/
theorem C8_push_pop_registry_witness :
    PopConfig { loadedConfig := {}, configStack := [], configChangeActions := ["a"] }
      = ({ loadedConfig := {}, configStack := [], configChangeActions := ["a"] }, []) :=
  (C8_push_pop_registry ciConfig
    { loadedConfig := {}, configStack := [], configChangeActions := ["a"] }).2.2.2 rfl

/-- Counterexample to claim C9: a PopConfig call on an empty stack returns
without running any registered change-notification callback ("a" is
registered but is not among the callbacks run by the call). -/
theorem C9_counterexample :
    "a" ∈ (Registry.mk ciConfig [] ["a"]).configChangeActions ∧
    "a" ∉ (PopConfig (Registry.mk ciConfig [] ["a"])).2 := by
  constructor
  · simp
  · simp [PopConfig]

/-- Claim C9 as amended: every push, and every pop performed on a non-empty
stack, runs every registered change-notification callback before returning;
a pop on an empty stack returns immediately and runs none. -/
theorem C9_push_pop_callbacks (env : Environment) (r : Registry) :
    (PushAlteredConfig env r).2 = r.configChangeActions ∧
    (pushCiConfig r).2 = r.configChangeActions ∧
    (r.configStack ≠ [] → (PopConfig r).2 = r.configChangeActions) := by
  refine ⟨rfl, rfl, ?_⟩
  intro h
  rw [PopConfig]
  cases hl : r.configStack.getLast? with
  | none => exact absurd (List.getLast?_eq_none_iff.mp hl) h
  | some env2 => rfl

/-- Witness for C9's amended claim at a concrete registry. -/
theorem C9_push_pop_callbacks_witness :
    (PopConfig { loadedConfig := ciConfig, configStack := [ciConfig],
                 configChangeActions := ["a"] }).2 = ["a"] :=
  (C9_push_pop_callbacks ciConfig
    { loadedConfig := ciConfig, configStack := [ciConfig],
      configChangeActions := ["a"] }).2.2 (by simp)

/-- Claim C10: RegisterForConfigChange panics exactly when the name is
already registered (so a name not currently present never panics), and
after UnregisterForConfigChange of a name a registration under that name
succeeds. The registered-name list is duplicate-free, as Go map keys are. -/
theorem C10_register_unregister (r : Registry) (name : String)
    (h : r.configChangeActions.Nodup) :
    (RegisterForConfigChange r name = none ↔ name ∈ r.configChangeActions) ∧
    RegisterForConfigChange (UnregisterForConfigChange r name) name ≠ none := by
  constructor
  · by_cases hm : name ∈ r.configChangeActions <;>
      simp [RegisterForConfigChange, hm]
  · have hne : name ∉ (UnregisterForConfigChange r name).configChangeActions := by
      intro hmem
      have := (List.Nodup.mem_erase_iff h).mp hmem
      exact this.1 rfl
    simp [RegisterForConfigChange, hne]

/-- Witness for C10 at a concrete registry. -/
theorem C10_register_unregister_witness :
    RegisterForConfigChange
      (UnregisterForConfigChange
        { loadedConfig := ciConfig, configStack := [], configChangeActions := ["x"] } "x")
      "x" ≠ none :=
  (C10_register_unregister
    { loadedConfig := ciConfig, configStack := [], configChangeActions := ["x"] }
    "x" (by simp)).2

/- Object round trip and NotFound behavior. -/

/-- Claim C2: for every object whose codec satisfies the Value Codec
contract (FromRedis of the ToRedis bytes restores the value, whatever the
receiver's prior state), SaveObject followed by LoadObject into a fresh
object of the same identity succeeds and yields a value equal to the saved
one. -/
theorem C2_roundtrip {V : Type} (o : ObjectType V) (pfx : String) (s : Store)
    (v v0 : V) (b : String)
    (hser : o.codec.ToRedis v = .ok b)
    (hde : ∀ w : V, o.codec.FromRedis w b = .ok v)
    (hid : o.StorageId v0 = o.StorageId v) :
    (SaveObject o pfx s v).result = .ok () ∧
    (LoadObject o pfx (SaveObject o pfx s v).store v0).err = none ∧
    (LoadObject o pfx (SaveObject o pfx s v).store v0).obj = v := by
  simp only [SaveObject, SaveValueAtKey, LoadObject, LoadValueAtKey,
    ObjectType.keyOf, hser, hid]
  simp [redisGet, redisSet, Store.update, hde]

/-- Witness object type for the C2 round trip: a string stored at a fixed
identifier under the identity codec. -/
def c2Obj : ObjectType String :=
  { StoragePrefix := "obj:",
    StorageId := fun _ => "x",
    codec := { ToRedis := fun v => .ok v, FromRedis := fun _ b => .ok b } }

/-- Witness for C2 at a concrete object, store and value. -/
theorem C2_roundtrip_witness :
    (SaveObject c2Obj "c:" emptyStore "hello").result = .ok () ∧
    (LoadObject c2Obj "c:" (SaveObject c2Obj "c:" emptyStore "hello").store "").err = none ∧
    (LoadObject c2Obj "c:" (SaveObject c2Obj "c:" emptyStore "hello").store "").obj = "hello" :=
  C2_roundtrip c2Obj "c:" emptyStore "hello" "" "hello" rfl (fun _ => rfl) rfl

/-- Claim C3: when the computed key is absent, LoadValueAtKey returns the
layer's NotFound error, leaves the receiver's prior state untouched, leaves
the store unchanged, and never invokes the codec (the outcome is the same
for every codec). -/
theorem C3_load_notfound {V : Type} (c : Codec V) (pfx : String) (s : Store)
    (k : RedisKey) (v : V) (h : s (computeKey pfx k) = none) :
    (LoadValueAtKey c pfx s k v).err = some (.notFound (computeKey pfx k)) ∧
    (GoError.notFound (computeKey pfx k)).isNotFoundError = true ∧
    (LoadValueAtKey c pfx s k v).obj = v ∧
    (LoadValueAtKey c pfx s k v).store = s ∧
    (∀ c2 : Codec V, LoadValueAtKey c2 pfx s k v = LoadValueAtKey c pfx s k v) := by
  have h2 : s (pfx ++ k.StoragePrefix ++ k.StorageId) = none := h
  refine ⟨?_, rfl, ?_, rfl, ?_⟩
  · simp [LoadValueAtKey, redisGet, h2, computeKey]
  · simp [LoadValueAtKey, redisGet, h2]
  · intro c2
    simp [LoadValueAtKey, redisGet, h2]

/-- Witness for C3 at a concrete absent key. -/
theorem C3_load_notfound_witness :
    (LoadValueAtKey c2Obj.codec "c:" emptyStore (RedisKey.mk "obj:" "x") "old").err
      = some (.notFound "c:obj:x") ∧
    (LoadValueAtKey c2Obj.codec "c:" emptyStore (RedisKey.mk "obj:" "x") "old").obj
      = "old" :=
  have h := C3_load_notfound c2Obj.codec "c:" emptyStore
    (RedisKey.mk "obj:" "x") "old" rfl
  ⟨h.1, h.2.2.1⟩

/- The NotFound error vocabulary (claim C4). -/

/-- Counterexample to claim C4: GetMemberScore on an absent key/member does
not return the layer's NotFoundError sentinel — it propagates go-redis's
redis.Nil, for which errors.Is(err, NotFoundError) is false. -/
theorem C4_counterexample :
    (GetMemberScore "c:" emptyStore (RedisKey.mk "zset:" "k") "m").result
      = .error .redisNil ∧
    GoError.isRedisNil .redisNil = true ∧
    GoError.isNotFoundError .redisNil = false := by
  refine ⟨?_, rfl, rfl⟩
  simp [GetMemberScore, redisZScore, emptyStore, liftErr]

/-- Claim C4 as amended: on a missing key, LoadValueAtKey returns the
layer's distinguished NotFoundError (wrapped, checkable with errors.Is);
GetMemberScore on a missing key or member propagates the backend's
distinguished redis.Nil sentinel unmodified — checkable, but not the
layer's NotFoundError value. Both are normal control-flow branches. -/
theorem C4_notfound_errors {V : Type} (c : Codec V) (pfx : String) (s : Store)
    (k zk : RedisKey) (v : V) (member : String)
    (habs : s (computeKey pfx k) = none)
    (hmem : redisZScore s (computeKey pfx zk) member = .error .nil) :
    ((LoadValueAtKey c pfx s k v).err = some (.notFound (computeKey pfx k)) ∧
     (GoError.notFound (computeKey pfx k)).isNotFoundError = true) ∧
    ((GetMemberScore pfx s zk member).result = .error .redisNil ∧
     GoError.isRedisNil .redisNil = true ∧
     GoError.isNotFoundError .redisNil = false) := by
  have h2 : s (pfx ++ k.StoragePrefix ++ k.StorageId) = none := habs
  have h3 : redisZScore s (pfx ++ zk.StoragePrefix ++ zk.StorageId) member
      = .error .nil := hmem
  refine ⟨⟨?_, rfl⟩, ?_, rfl, rfl⟩
  · simp [LoadValueAtKey, redisGet, h2, computeKey]
  · simp [GetMemberScore, h3, liftErr]

/-- Witness for C4's amended claim at a concrete empty store. -/
theorem C4_notfound_errors_witness :
    (LoadValueAtKey c2Obj.codec "c:" emptyStore (RedisKey.mk "obj:" "x") "old").err
      = some (.notFound "c:obj:x") ∧
    (GetMemberScore "c:" emptyStore (RedisKey.mk "zset:" "k") "m").result
      = .error .redisNil :=
  have h := C4_notfound_errors c2Obj.codec "c:" emptyStore
    (RedisKey.mk "obj:" "x") (RedisKey.mk "zset:" "k") "old" "m" rfl rfl
  ⟨h.1.1, h.2.1⟩

/- The missing-key downgrade policy (claim C5). -/

/-- Counterexample to claim C5: MapGet is a second operation (besides
FetchString) that converts the backend's missing-key signal (redis.Nil from
HGET) into an empty value with no error, so the String get is not the only
such operation. -/
theorem C5_counterexample :
    redisHGet emptyStore "c:map:k" "f" = .error .nil ∧
    (MapGet "c:" emptyStore (RedisKey.mk "map:" "k") "f").result = .ok "" := by
  constructor
  · simp [redisHGet, emptyStore]
  · simp [MapGet, redisHGet, emptyStore]

/-- Claim C5 as amended: FetchString and MapGet are exactly the operations
that convert the backend's missing-key (redis.Nil) signal into an empty
value with no error; GetMemberScore, MoveOne and FetchOneBlocking propagate
redis.Nil unmodified, LoadValueAtKey translates it into the layer's
NotFoundError, and a real backend error (e.g. WRONGTYPE) is never
downgraded, not even by FetchString or MapGet. -/
theorem C5_missing_key_policy (pfx : String) (s : Store) (k srcK dstK : RedisKey)
    (member field : String) {V : Type} (c : Codec V) (v : V)
    (onLeft srcLeft dstLeft : Bool) (timeout : Int) :
    (s (computeKey pfx k) = none → (FetchString pfx s k).result = .ok "") ∧
    (redisHGet s (computeKey pfx k) field = .error .nil →
      (MapGet pfx s k field).result = .ok "") ∧
    (redisZScore s (computeKey pfx k) member = .error .nil →
      (GetMemberScore pfx s k member).result = .error .redisNil) ∧
    (s (computeKey pfx srcK) = none →
      (MoveOne pfx s srcK dstK srcLeft dstLeft).result = .error .redisNil) ∧
    (s (computeKey pfx k) = none →
      (FetchOneBlocking pfx s k onLeft timeout).result = .error .redisNil) ∧
    (s (computeKey pfx k) = none →
      (LoadValueAtKey c pfx s k v).err = some (.notFound (computeKey pfx k))) ∧
    (redisGet s (computeKey pfx k) = .error .wrongType →
      (FetchString pfx s k).result = .error (.backend "WRONGTYPE")) ∧
    (redisHGet s (computeKey pfx k) field = .error .wrongType →
      (MapGet pfx s k field).result = .error (.backend "WRONGTYPE")) := by
  refine ⟨?_, ?_, ?_, ?_, ?_, ?_, ?_, ?_⟩ <;> intro h
  · simp [FetchString, redisGet, show s (pfx ++ k.StoragePrefix ++ k.StorageId) = none from h]
  · simp [MapGet, show redisHGet s (pfx ++ k.StoragePrefix ++ k.StorageId) field = .error .nil from h]
  · simp [GetMemberScore, liftErr,
      show redisZScore s (pfx ++ k.StoragePrefix ++ k.StorageId) member = .error .nil from h]
  · simp [MoveOne, redisLMove,
      show s (pfx ++ srcK.StoragePrefix ++ srcK.StorageId) = none from h, liftErr]
  · simp [FetchOneBlocking, redisLMove,
      show s (pfx ++ k.StoragePrefix ++ k.StorageId) = none from h, liftErr]
  · simp [LoadValueAtKey, redisGet, computeKey,
      show s (pfx ++ k.StoragePrefix ++ k.StorageId) = none from h]
  · simp [FetchString,
      show redisGet s (pfx ++ k.StoragePrefix ++ k.StorageId) = .error .wrongType from h,
      liftErr]
  · simp [MapGet,
      show redisHGet s (pfx ++ k.StoragePrefix ++ k.StorageId) field = .error .wrongType from h,
      liftErr]

/-- Witness for C5's amended claim at a concrete store (a string key of the
wrong type for HGET, everything else absent). -/
theorem C5_missing_key_policy_witness :
    (FetchString "c:" emptyStore (RedisKey.mk "string:" "k")).result = .ok "" ∧
    (MapGet "c:" emptyStore (RedisKey.mk "map:" "k") "f").result = .ok "" ∧
    (GetMemberScore "c:" emptyStore (RedisKey.mk "zset:" "k") "m").result
      = .error .redisNil :=
  have h := C5_missing_key_policy "c:" emptyStore (RedisKey.mk "string:" "k")
    (RedisKey.mk "list:" "a") (RedisKey.mk "list:" "b") "m" "f"
    c2Obj.codec "old" true true true 5
  have h2 := C5_missing_key_policy "c:" emptyStore (RedisKey.mk "map:" "k")
    (RedisKey.mk "list:" "a") (RedisKey.mk "list:" "b") "m" "f"
    c2Obj.codec "old" true true true 5
  have h3 := C5_missing_key_policy "c:" emptyStore (RedisKey.mk "zset:" "k")
    (RedisKey.mk "list:" "a") (RedisKey.mk "list:" "b") "m" "f"
    c2Obj.codec "old" true true true 5
  ⟨h.1 rfl, h2.2.1 rfl, h3.2.2.1 rfl⟩

/- Empty-identifier checks (claim C6). -/

/-- Counterexample to claim C6: SetExpiration on an identity with an empty
StorageId performs no programmer-misuse check — it succeeds and issues an
EXPIRE command on the nonsensical key built from the bare prefixes. -/
theorem C6_counterexample :
    (SetExpiration "c:" emptyStore (RedisKey.mk "string:" "") 5).result = .ok () ∧
    (SetExpiration "c:" emptyStore (RedisKey.mk "string:" "") 5).trace
      = [Cmd.expire "c:string:" 5] := by
  exact ⟨rfl, rfl⟩

/-- Claim C6 as amended: on an empty StorageId, DeleteStorage alone fails
fast with the programmer-misuse error "storable has no ID", issues no
backend command and leaves the store unchanged; SetExpiration and
SetExpirationAt perform no such check and issue their EXPIRE/EXPIREAT
command on the computed (identifier-less) key. -/
theorem C6_empty_id (pfx : String) (s : Store) (k : RedisKey)
    (secs at_ : Int) (h : k.StorageId = "") :
    (DeleteStorage pfx s k).result = .error (.misuse "storable has no ID") ∧
    (DeleteStorage pfx s k).trace = [] ∧
    (DeleteStorage pfx s k).store = s ∧
    (SetExpiration pfx s k secs).trace = [.expire (computeKey pfx k) secs] ∧
    (SetExpiration pfx s k secs).result = .ok () ∧
    (SetExpirationAt pfx s k at_).trace = [.expireAt (computeKey pfx k) at_] ∧
    (SetExpirationAt pfx s k at_).result = .ok () := by
  refine ⟨?_, ?_, ?_, rfl, rfl, rfl, rfl⟩ <;> simp [DeleteStorage, h]

/-- Witness for C6's amended claim at a concrete empty-id key. -/
theorem C6_empty_id_witness :
    (DeleteStorage "c:" emptyStore (RedisKey.mk "string:" "")).result
      = .error (.misuse "storable has no ID") ∧
    (SetExpiration "c:" emptyStore (RedisKey.mk "string:" "") 5).trace
      = [Cmd.expire "c:string:" 5] :=
  have h := C6_empty_id "c:" emptyStore (RedisKey.mk "string:" "") 5 7 rfl
  ⟨h.1, h.2.2.2.1⟩

/- The blocking pop-and-requeue primitive (claim C7). -/

/-- mapError reaches ok exactly when the underlying result is ok. -/
@[simp] theorem mapError_eq_ok {ε ε2 α : Type} (f : ε → ε2) (r : Except ε α)
    (a : α) : r.mapError f = .ok a ↔ r = .ok a := by
  cases r <;> simp

/-- getLast? of a cons ending in a singleton append. -/
theorem getLast?_cons_concat (y x : String) (ys : List String) :
    (y :: (ys ++ [x])).getLast? = some x := by
  rw [← List.cons_append]
  exact List.getLast?_concat _

/-- dropLast of a cons ending in a singleton append. -/
theorem dropLast_cons_concat (y x : String) (ys : List String) :
    (y :: (ys ++ [x])).dropLast = y :: ys := by
  rw [← List.cons_append]
  exact List.dropLast_concat

/-- Any error surfaced through liftErr is redis.Nil or a backend error. -/
theorem mapError_liftErr_shape {α : Type} (r : Except RErr α) (e : GoError)
    (h : r.mapError liftErr = .error e) :
    e = .redisNil ∨ ∃ m, e = .backend m := by
  cases r with
  | ok a => simp at h
  | error e2 =>
    simp at h
    cases e2 with
    | nil => exact Or.inl h.symm
    | wrongType => exact Or.inr ⟨"WRONGTYPE", h.symm⟩

/-- An LMOVE that returns a value found a non-empty list at the source key. -/
theorem redisLMove_ok_src (s : Store) (srcKey dstKey : String) (a b : Bool)
    (x : String) (h : (redisLMove s srcKey dstKey a b).1 = .ok x) :
    ∃ l, s srcKey = some (.list l) ∧ l ≠ [] := by
  rcases hsk : s srcKey with _ | rv
  · simp [redisLMove, hsk] at h
  · cases rv with
    | str v => simp [redisLMove, hsk] at h
    | set ms => simp [redisLMove, hsk] at h
    | zset es => simp [redisLMove, hsk] at h
    | hash fs => simp [redisLMove, hsk] at h
    | list l =>
      cases l with
      | nil => simp [redisLMove, hsk, popEnd, List.getLast?] at h
      | cons y ys => exact ⟨y :: ys, rfl, by simp⟩

/-- Claim C7: FetchOneBlocking issues exactly one BLMOVE whose source and
destination are the same computed key; with data present it pops the
element at the caller-chosen end and re-pushes that same element at the
opposite end of the same list; with no data it reports the timeout
indication (redis.Nil); every non-value outcome is the timeout indication
or a backend error, and a value is returned only when the list actually
held one — never an empty value with no error. -/
theorem C7_blocking_pop (pfx : String) (s : Store) (k : RedisKey)
    (onLeft : Bool) (timeout : Int) :
    (FetchOneBlocking pfx s k onLeft timeout).trace
      = [Cmd.blmove (computeKey pfx k) (computeKey pfx k)
          (if onLeft then "left" else "right")
          (if onLeft then "right" else "left") timeout] ∧
    (∀ x xs, onLeft = true → s (computeKey pfx k) = some (.list (x :: xs)) →
      (FetchOneBlocking pfx s k onLeft timeout).result = .ok x ∧
      (FetchOneBlocking pfx s k onLeft timeout).store (computeKey pfx k)
        = some (.list (xs ++ [x]))) ∧
    (∀ l x, onLeft = false → s (computeKey pfx k) = some (.list (l ++ [x])) →
      (FetchOneBlocking pfx s k onLeft timeout).result = .ok x ∧
      (FetchOneBlocking pfx s k onLeft timeout).store (computeKey pfx k)
        = some (.list (x :: l))) ∧
    ((s (computeKey pfx k) = none ∨ s (computeKey pfx k) = some (.list [])) →
      (FetchOneBlocking pfx s k onLeft timeout).result = .error .redisNil ∧
      (FetchOneBlocking pfx s k onLeft timeout).store = s) ∧
    (∀ v, (FetchOneBlocking pfx s k onLeft timeout).result = .ok v →
      ∃ l, s (computeKey pfx k) = some (.list l) ∧ l ≠ []) ∧
    (∀ e, (FetchOneBlocking pfx s k onLeft timeout).result = .error e →
      e = .redisNil ∨ ∃ m, e = .backend m) := by
  refine ⟨rfl, ?_, ?_, ?_, ?_, ?_⟩
  · intro x xs h1 h2
    subst h1
    have h3 : s (pfx ++ k.StoragePrefix ++ k.StorageId) = some (.list (x :: xs)) := h2
    cases xs with
    | nil =>
      constructor <;>
        simp [FetchOneBlocking, redisLMove, h3, popEnd, pushEnd, Store.update,
          computeKey]
    | cons y ys =>
      constructor <;>
        simp [FetchOneBlocking, redisLMove, h3, popEnd, pushEnd, Store.update,
          computeKey]
  · intro l x h1 h2
    subst h1
    have h3 : s (pfx ++ k.StoragePrefix ++ k.StorageId) = some (.list (l ++ [x])) := h2
    cases l with
    | nil =>
      constructor <;>
        simp [FetchOneBlocking, redisLMove, h3, popEnd, pushEnd, Store.update,
          computeKey, List.getLast?]
    | cons y ys =>
      constructor <;>
        simp [FetchOneBlocking, redisLMove, h3, popEnd, pushEnd, Store.update,
          computeKey, getLast?_cons_concat, dropLast_cons_concat]
  · intro h1
    rcases h1 with h2 | h2 <;>
      have h3 := h2 <;>
      constructor <;>
      cases onLeft <;>
        simp [FetchOneBlocking, redisLMove,
          show s (pfx ++ k.StoragePrefix ++ k.StorageId) = _ from h2,
          popEnd, liftErr, List.getLast?, computeKey]
  · intro v hv
    rw [show (FetchOneBlocking pfx s k onLeft timeout).result
        = ((redisLMove s (pfx ++ k.StoragePrefix ++ k.StorageId)
            (pfx ++ k.StoragePrefix ++ k.StorageId)
            ((if onLeft then "left" else "right") == "left")
            ((if onLeft then "right" else "left") == "left")).1).mapError liftErr
        from rfl] at hv
    rw [mapError_eq_ok] at hv
    exact redisLMove_ok_src s _ _ _ _ v hv
  · intro e he
    rw [show (FetchOneBlocking pfx s k onLeft timeout).result
        = ((redisLMove s (pfx ++ k.StoragePrefix ++ k.StorageId)
            (pfx ++ k.StoragePrefix ++ k.StorageId)
            ((if onLeft then "left" else "right") == "left")
            ((if onLeft then "right" else "left") == "left")).1).mapError liftErr
        from rfl] at he
    exact mapError_liftErr_shape _ e he

/-- Witness for C7 at a concrete two-element list, popping from the right. -/
theorem C7_blocking_pop_witness :
    (FetchOneBlocking "c:" (emptyStore.update "c:list:k" (some (.list ["a", "b"])))
      (RedisKey.mk "list:" "k") false 5).result = .ok "b" ∧
    (FetchOneBlocking "c:" (emptyStore.update "c:list:k" (some (.list ["a", "b"])))
      (RedisKey.mk "list:" "k") false 5).store "c:list:k"
      = some (.list ["b", "a"]) :=
  (C7_blocking_pop "c:" (emptyStore.update "c:list:k" (some (.list ["a", "b"])))
    (RedisKey.mk "list:" "k") false 5).2.2.1 ["a"] "b" rfl
    (by simp [Store.update, emptyStore, computeKey])

/- Key computation across the whole operation set (claim C1). -/

/-- Claim C1: every operation of the primitive operation set, and the
Load/Save object combinators, issues its backend commands only on the key
active-environment-prefix + StoragePrefix() + StorageId() computed from the
typed identity it was given (for MoveOne, each of the two keys is computed
from its own identity); no operation accepts a raw string key — every
operation takes a typed identity value. -/
theorem C1_computed_keys (pfx : String) (s : Store) (k src dst : RedisKey)
    (secs at_ start stop mn mx score count timeout : Int)
    (onLeft srcLeft dstLeft : Bool) (val member element field v2 : String)
    (members : List String) {V : Type} (c : Codec V) (v : V)
    (o : ObjectType V) :
    tracesOnly (SetExpiration pfx s k secs).trace (computeKey pfx k) = true ∧
    tracesOnly (SetExpirationAt pfx s k at_).trace (computeKey pfx k) = true ∧
    tracesOnly (DeleteStorage pfx s k).trace (computeKey pfx k) = true ∧
    tracesOnly (FetchString pfx s k).trace (computeKey pfx k) = true ∧
    tracesOnly (StoreString pfx s k val).trace (computeKey pfx k) = true ∧
    tracesOnly (FetchMembers pfx s k).trace (computeKey pfx k) = true ∧
    tracesOnly (IsMember pfx s k member).trace (computeKey pfx k) = true ∧
    tracesOnly (AddMembers pfx s k members).trace (computeKey pfx k) = true ∧
    tracesOnly (RemoveMembers pfx s k members).trace (computeKey pfx k) = true ∧
    tracesOnly (FetchRangeInterval pfx s k start stop).trace (computeKey pfx k) = true ∧
    tracesOnly (FetchRangeScoreInterval pfx s k mn mx).trace (computeKey pfx k) = true ∧
    tracesOnly (AddScoredMember pfx s k score member).trace (computeKey pfx k) = true ∧
    tracesOnly (RemoveScoredMember pfx s k member).trace (computeKey pfx k) = true ∧
    tracesOnly (GetMemberScore pfx s k member).trace (computeKey pfx k) = true ∧
    tracesOnly (FetchRange pfx s k start stop).trace (computeKey pfx k) = true ∧
    tracesOnly (FetchOneBlocking pfx s k onLeft timeout).trace (computeKey pfx k) = true ∧
    (MoveOne pfx s src dst srcLeft dstLeft).trace
      = [Cmd.lmove (computeKey pfx src) (computeKey pfx dst)
          (if srcLeft then "left" else "right")
          (if dstLeft then "left" else "right")] ∧
    tracesOnly (PushRange pfx s k onLeft members).trace (computeKey pfx k) = true ∧
    tracesOnly (RemoveElement pfx s k count element).trace (computeKey pfx k) = true ∧
    tracesOnly (MapGet pfx s k field).trace (computeKey pfx k) = true ∧
    tracesOnly (MapSet pfx s k field v2).trace (computeKey pfx k) = true ∧
    tracesOnly (MapGetKeys pfx s k).trace (computeKey pfx k) = true ∧
    tracesOnly (MapGetAll pfx s k).trace (computeKey pfx k) = true ∧
    tracesOnly (MapRemove pfx s k field).trace (computeKey pfx k) = true ∧
    tracesOnly (SaveValueAtKey c pfx s k v).trace (computeKey pfx k) = true ∧
    tracesOnly (LoadValueAtKey c pfx s k v).trace (computeKey pfx k) = true ∧
    tracesOnly (SaveObject o pfx s v).trace (computeKey pfx (o.keyOf v)) = true ∧
    tracesOnly (LoadObject o pfx s v).trace (computeKey pfx (o.keyOf v)) = true := by
  refine ⟨?_, ?_, ?_, ?_, ?_, ?_, ?_, ?_, ?_, ?_, ?_, ?_, ?_, ?_, ?_, ?_,
    ?_, ?_, ?_, ?_, ?_, ?_, ?_, ?_, ?_, ?_, ?_, ?_⟩
  · simp [SetExpiration, tracesOnly, Cmd.keys, computeKey]
  · simp [SetExpirationAt, tracesOnly, Cmd.keys, computeKey]
  · by_cases h : k.StorageId = "" <;>
      simp [DeleteStorage, h, tracesOnly, Cmd.keys, computeKey]
  · simp [FetchString, tracesOnly, Cmd.keys, computeKey]
  · simp [StoreString, tracesOnly, Cmd.keys, computeKey]
  · simp [FetchMembers, tracesOnly, Cmd.keys, computeKey]
  · simp [IsMember, tracesOnly, Cmd.keys, computeKey]
  · by_cases h : members.isEmpty <;>
      simp [AddMembers, h, tracesOnly, Cmd.keys, computeKey]
  · by_cases h : members.isEmpty <;>
      simp [RemoveMembers, h, tracesOnly, Cmd.keys, computeKey]
  · simp [FetchRangeInterval, tracesOnly, Cmd.keys, computeKey]
  · simp [FetchRangeScoreInterval, tracesOnly, Cmd.keys, computeKey]
  · simp [AddScoredMember, tracesOnly, Cmd.keys, computeKey]
  · simp [RemoveScoredMember, tracesOnly, Cmd.keys, computeKey]
  · simp [GetMemberScore, tracesOnly, Cmd.keys, computeKey]
  · simp [FetchRange, tracesOnly, Cmd.keys, computeKey]
  · simp [FetchOneBlocking, tracesOnly, Cmd.keys, computeKey]
  · rfl
  · cases onLeft <;> simp [PushRange, tracesOnly, Cmd.keys, computeKey]
  · simp [RemoveElement, tracesOnly, Cmd.keys, computeKey]
  · simp [MapGet, tracesOnly, Cmd.keys, computeKey]
  · simp [MapSet, tracesOnly, Cmd.keys, computeKey]
  · simp [MapGetKeys, tracesOnly, Cmd.keys, computeKey]
  · simp [MapGetAll, tracesOnly, Cmd.keys, computeKey]
  · simp [MapRemove, tracesOnly, Cmd.keys, computeKey]
  · cases hc : c.ToRedis v <;>
      simp [SaveValueAtKey, hc, tracesOnly, Cmd.keys, computeKey]
  · simp [LoadValueAtKey, tracesOnly, Cmd.keys, computeKey]
  · cases hc : o.codec.ToRedis v <;>
      simp [SaveObject, SaveValueAtKey, ObjectType.keyOf, hc, tracesOnly,
        Cmd.keys, computeKey]
  · simp [LoadObject, LoadValueAtKey, ObjectType.keyOf, tracesOnly,
      Cmd.keys, computeKey]

end InMyVoice
